import Mathlib

/-!
Shallow embedding of the `metal` repository's two source files:

* `metal/mmtl/payload.py` — the `Payload` container and its mutating
  operations `add_label_set`, `remove_label_set`, `_retarget_labelset`,
  `remap_labelsets`.
* `metal/mmtl/slicing/search.py` — the random-search driver `main`:
  the per-trial loop with the fixed-args/search-space overlap check,
  the best-metric selection scan, and the report writing.

Python dictionaries are embedded as association lists with Python's
insertion-order semantics (`d[k] = v` updates in place when the key is
present, otherwise appends; `pop`/`del` raise `KeyError` on a missing
key).  Python exceptions are embedded as an `Except PyError` result.
Numeric metric values are embedded as `Int`; Python truthiness of a
number is "nonzero" and of an optional string is "present and
non-empty", which the definitions below spell out explicitly.
-/

/-- Python exceptions raised by the embedded code. -/
inductive PyError where
  | assertionError
  | keyError
  | typeError
  | valueError (msg : String)
  | exception (msg : String)
deriving DecidableEq, Repr

/-- `d[k]`, returning `none` when the key is absent (first binding wins,
matching a Python dict, which holds each key at most once). -/
def dictGet {α : Type} : List (String × α) → String → Option α
  | [], _ => none
  | kv :: rest, k => if kv.1 = k then some kv.2 else dictGet rest k

/-- `k in d`. -/
def hasKey {α : Type} (d : List (String × α)) (k : String) : Bool :=
  d.any (fun kv => kv.1 == k)

/-- `d[k] = v`: update in place when present, append otherwise
(Python dict insertion-order semantics). -/
def dictSet {α : Type} (d : List (String × α)) (k : String) (v : α) :
    List (String × α) :=
  if hasKey d k then d.map (fun kv => if kv.1 = k then (k, v) else kv)
  else d ++ [(k, v)]

/-- `del d[k]` / the removal part of `d.pop(k)`. -/
def dictDel {α : Type} (d : List (String × α)) (k : String) :
    List (String × α) :=
  d.filter (fun kv => kv.1 ≠ k)

/-- `d.pop(k)`: `none` models the `KeyError` on a missing key. -/
def dictPop {α : Type} (d : List (String × α)) (k : String) :
    Option (List (String × α)) :=
  if hasKey d k then some (dictDel d k) else none

/-- `d.update(e)`: apply `e`'s bindings left to right. -/
def dictUpdate {α : Type} (d : List (String × α)) :
    List (String × α) → List (String × α)
  | [] => d
  | kv :: rest => dictUpdate (dictSet d kv.1 kv.2) rest

/-- A torch tensor, embedded by its shape only: the claims about
`payload.py` depend on `dim()` (the length of the shape) and on which
dictionary keys hold which tensor, never on element values. -/
structure Tensor where
  shape : List Nat
deriving DecidableEq, Repr

/-- `new_labels.dim()`. -/
def Tensor.dim (t : Tensor) : Nat := t.shape.length

/-- `torch.stack(ts, dim=0)`: a new leading dimension of size `n`. -/
def torchStack (ts : List Tensor) : Tensor :=
  ⟨ts.length :: (match ts with | [] => [] | t :: _ => t.shape)⟩

/-- The Python object passed as `label_list`: the code accepts only a
`torch.Tensor` and `assert`s against anything else (e.g. a plain list). -/
inductive PyObj where
  | tensor (t : Tensor)
  | pyList (xs : List Int)
deriving DecidableEq, Repr

/-- `data_loader.dataset` (an `MmtlDataset`): the items iterated by the
`label_fn` path and the `labels` dict mutated by add/remove. -/
structure MmtlDataset where
  items : List Tensor
  labels : List (String × Tensor)
deriving DecidableEq, Repr

/-- `Payload(name, data_loader, labels_to_tasks, split)`; `dataset`
stands for `data_loader.dataset`, the only part of the loader the
embedded operations touch.  `labels_to_tasks` maps label-set names to
task names, where a task name may be `None` after a remap. -/
structure Payload where
  name : String
  dataset : MmtlDataset
  labels_to_tasks : List (String × Option String)
  split : String
deriving DecidableEq, Repr

/-- The tail of `add_label_set` after `new_labels` is computed: the
dimension check, then the two mutations
(`dataset.labels[task_name] = new_labels` — keyed by `task_name` —
and `labels_to_tasks[label_name] = task_name`). -/
def Payload.finishAdd (p : Payload) (task_name label_name : String)
    (new_labels : Tensor) : Except PyError Payload :=
  if new_labels.dim < 2 then
    .error (.exception "New label_set must have at least two dimensions: [n, ?]")
  else
    .ok { p with
      dataset := { p.dataset with
        labels := dictSet p.dataset.labels task_name new_labels },
      labels_to_tasks :=
        dictSet p.labels_to_tasks label_name (some task_name) }

/-- `Payload.add_label_set(task_name, label_name, label_list, label_fn)`.
The `assert` statements are embedded as `AssertionError` results; a Lean
function is always "callable", so `assert callable(label_fn)` holds. -/
def Payload.add_label_set (p : Payload) (task_name label_name : String)
    (label_list : Option PyObj) (label_fn : Option (Tensor → Tensor)) :
    Except PyError Payload :=
  match label_fn with
  | some f =>
    match label_list with
    | some _ => .error .assertionError
    | none =>
      Payload.finishAdd p task_name label_name
        (torchStack (p.dataset.items.map f))
  | none =>
    match label_list with
    | some (.tensor t) => Payload.finishAdd p task_name label_name t
    | some (.pyList _) => .error .assertionError
    | none => .error (.valueError "Incorrect label object type -- supply list or function")

/-- `Payload.remove_label_set(label_name)`:
`dataset.labels.pop(label_name)` — keyed by `label_name` — then
`task_name = labels_to_tasks[label_name]` and
`del labels_to_tasks[label_name]`. -/
def Payload.remove_label_set (p : Payload) (label_name : String) :
    Except PyError Payload :=
  match dictPop p.dataset.labels label_name with
  | none => .error .keyError
  | some labels2 =>
    match dictGet p.labels_to_tasks label_name with
    | none => .error .keyError
    | some _ =>
      .ok { p with
        dataset := { p.dataset with labels := labels2 },
        labels_to_tasks := dictDel p.labels_to_tasks label_name }

/-- `Payload._retarget_labelset(label_name, task_name)`: look up the old
task (a `KeyError` on a missing label-set name), write the new one only
when it differs. -/
def Payload.retarget_labelset (p : Payload) (label_name : String)
    (task_name : Option String) : Except PyError Payload :=
  match dictGet p.labels_to_tasks label_name with
  | none => .error .keyError
  | some old_task =>
    if old_task ≠ task_name then
      .ok { p with
        labels_to_tasks := dictSet p.labels_to_tasks label_name task_name }
    else .ok p

/-- The `for label_name in test_labelsets` loop of `remap_labelsets`,
over the snapshot `L` of the payload's label-set names (retargeting
never adds or removes keys, so iterating a snapshot matches iterating
the live `keys()` view). -/
def Payload.remapKeys (overrides : List (String × Option String))
    (default_none : Bool) :
    List String → Payload → Except PyError Payload
  | [], p => .ok p
  | label_name :: rest, p =>
    match dictGet overrides label_name with
    | some new_task =>
      match p.retarget_labelset label_name new_task with
      | .ok p2 => Payload.remapKeys overrides default_none rest p2
      | .error e => .error e
    | none =>
      if default_none then
        match p.retarget_labelset label_name none with
        | .ok p2 => Payload.remapKeys overrides default_none rest p2
        | .error e => .error e
      else Payload.remapKeys overrides default_none rest p

/-- `Payload.remap_labelsets(labels_to_tasks, default_none)`. -/
def Payload.remap_labelsets (p : Payload)
    (overrides : List (String × Option String)) (default_none : Bool) :
    Except PyError Payload :=
  Payload.remapKeys overrides default_none
    (p.labels_to_tasks.map (fun kv => kv.1)) p

/-! ## The search driver (`metal/mmtl/slicing/search.py`) -/

/-- `--search_metric_mode` is restricted by argparse to `max` or `min`. -/
inductive Mode where
  | maxMode
  | minMode
deriving DecidableEq, Repr

/-- `metric_cmp = metric_fns[args.search_metric_mode]` where
`metric_fns = ("max": max, "min": min)`. -/
def Mode.cmpFn : Mode → Int → Int → Int
  | .maxMode => fun a b => max a b
  | .minMode => fun a b => min a b

/-- The `(metrics_path, str(search_conf))` key of `config_to_metrics`. -/
abbrev PathConfig := String × String

/-- One run's metrics dictionary (metric name → numeric value). -/
abbrev Metrics := List (String × Int)

/-- One entry of the collected `config_to_metrics` dictionary. -/
abbrev Entry := PathConfig × Metrics

/-- The pair of variables `best_path_config` / `best_metric`, both
`None` before the scan. -/
structure ScanState where
  best_path_config : Option PathConfig
  best_metric : Option Int
deriving DecidableEq, Repr

/-- Python truthiness of `args.search_metric` (an optional string):
falsy when omitted or empty. -/
def truthyStr : Option String → Bool
  | none => false
  | some s => s ≠ ""

/-- Python `str(...)` of `best_metric` as interpolated into the report. -/
def pyStrOptInt : Option Int → String
  | none => "None"
  | some v => toString v

/-- One iteration of the best-selection loop over `config_to_metrics`:
skip unless `args.search_metric` is truthy; initialize whenever
`not best_metric` (i.e. `best_metric` is `None` **or** `0`); otherwise
keep `curr_metric` when `metric_cmp(curr_metric, best_metric)` equals
`curr_metric`.  A missing metric key is a `KeyError`. -/
def scanStep (sm : Option String) (mode : Mode) (st : ScanState)
    (e : Entry) : Except PyError ScanState :=
  match sm with
  | none => .ok st
  | some m =>
    if m = "" then .ok st
    else
      let initBest : Except PyError ScanState :=
        match dictGet e.2 m with
        | none => .error .keyError
        | some v => .ok ⟨some e.1, some v⟩
      match st.best_metric with
      | none => initBest
      | some best =>
        if best = 0 then initBest
        else
          match dictGet e.2 m with
          | none => .error .keyError
          | some curr =>
            if mode.cmpFn curr best = curr then .ok ⟨some e.1, some curr⟩
            else .ok st

/-- The `for path_config, metrics in config_to_metrics.items()` loop. -/
def scanLoop (sm : Option String) (mode : Mode) :
    List Entry → ScanState → Except PyError ScanState
  | [], st => .ok st
  | e :: rest, st =>
    match scanStep sm mode st e with
    | .ok st2 => scanLoop sm mode rest st2
    | .error err => .error err

/-- `pprint.pprint(config_to_metrics, f)`: the raw dump of the full
collection appended to the report. -/
def pprintDump (ctm : List Entry) : String := reprStr ctm

/-- The tail of `main` after the trials: the best-selection scan, the
unpacking `best_path, best_config = best_path_config` (a `TypeError`
when it is still `None`), and the report-file content.  Note the
source's `f.write("Config: {best_config}\n")` has no `f` prefix, so the
braces are written literally. -/
def mainTail (sm : Option String) (mode : Mode) (ctm : List Entry) :
    Except PyError String :=
  match scanLoop sm mode ctm ⟨none, none⟩ with
  | .error e => .error e
  | .ok st =>
    match st.best_path_config with
    | none => .error .typeError
    | some best_path_config =>
      let best_path := best_path_config.1
      match sm with
      | none => .ok (pprintDump ctm)
      | some m =>
        if m = "" then .ok (pprintDump ctm)
        else
          .ok ("Path: " ++ best_path ++ "\n"
            ++ "Config: {best_config}\n"
            ++ m ++ ": " ++ pyStrOptInt st.best_metric ++ "\n"
            ++ pprintDump ctm)

/-- One sampled or merged configuration, as a flat string dict
(values' exact rendering is irrelevant to the claims). -/
abbrev Conf := List (String × String)

/-- `str(search_conf)`, the second half of a collection key. -/
def strConf (c : Conf) : String := reprStr c

/-- The per-trial loop of `main`: for each sampled `search_conf`, build
`full_conf` from it, raise `ValueError("Fixed arg shows up in search
space.")` when any fixed-args key is already present, then merge
`fixed_args`, apply the optional device override, and invoke `launch`
(the external training entrypoint, returning a metrics path and the
loaded metrics dict).  The first component of the result is the list of
configurations actually launched, also when a later step fails. -/
def trialLoop (fixed_args : Conf) (device : Option String)
    (launch : Conf → String × Metrics) :
    List Conf → List Conf × Except PyError (List Entry)
  | [] => ([], .ok [])
  | search_conf :: rest =>
    let full_conf := dictUpdate [] search_conf
    if fixed_args.any (fun kv => hasKey full_conf kv.1) then
      ([], .error (.valueError "Fixed arg shows up in search space."))
    else
      let full_conf2 := dictUpdate full_conf fixed_args
      let full_conf3 :=
        match device with
        | some d => if d = "" then full_conf2 else dictSet full_conf2 "device" d
        | none => full_conf2
      let pm := launch full_conf3
      let rest_result := trialLoop fixed_args device launch rest
      (full_conf3 :: rest_result.1,
        match rest_result.2 with
        | .ok entries => .ok (((pm.1, strConf search_conf), pm.2) :: entries)
        | .error e => .error e)

/-! ## Concrete fixtures used by several claims -/

/-- A payload with empty label mappings, the smallest add/remove input. -/
def samplePayload : Payload := ⟨"p", ⟨[], []⟩, [], "train"⟩

/-- The result of `samplePayload.add_label_set "T1" "a" ⟨3×1 tensor⟩`. -/
def addedPayload : Payload :=
  ⟨"p", ⟨[], [("T1", ⟨[3, 1]⟩)]⟩, [("a", some "T1")], "train"⟩

/-- A payload whose dataset has one item, for the `label_fn` path. -/
def itemsPayload : Payload := ⟨"p", ⟨[⟨[4]⟩], []⟩, [], "train"⟩

/-- A payload with two label sets, for the remap claims. -/
def remapPayload : Payload :=
  ⟨"p", ⟨[], []⟩, [("a", some "T1"), ("b", some "T2")], "train"⟩

/-- The spec's example: three collected metrics `A = 5, 9, 2`. -/
def exampleCollection : List Entry :=
  [(("p1", "c1"), [("A", 5)]), (("p2", "c2"), [("A", 9)]),
   (("p3", "c3"), [("A", 2)])]

/-- Collected metrics `A = 5, 0, 3`: the `0` re-triggers the falsy
initialization check of the scan. -/
def falsyCollection : List Entry :=
  [(("p1", "c1"), [("A", 5)]), (("p2", "c2"), [("A", 0)]),
   (("p3", "c3"), [("A", 3)])]

/-- A search space whose single axis `lr` also appears in the fixed
args. -/
def overlapSearchSpace : Conf := [("lr", "[0.1, 0.01]")]

/-- Fixed args sharing the key `lr` with `overlapSearchSpace`. -/
def overlapFixedArgs : Conf := [("lr", "0.001")]

/-- One sampled configuration drawn from `overlapSearchSpace`. -/
def overlapConfigs : List Conf := [[("lr", "0.1")]]

/-! ## Helper lemmas on the dictionary embedding -/

theorem hasKey_iff_mem_keys {α : Type} (d : List (String × α)) (k : String) :
    hasKey d k = true ↔ k ∈ d.map Prod.fst := by
  simp [hasKey, List.any_eq_true, beq_iff_eq, List.mem_map]

theorem dictGet_isSome_of_hasKey {α : Type} {d : List (String × α)}
    {k : String} (h : hasKey d k = true) : ∃ v, dictGet d k = some v := by
  induction d with
  | nil => simp [hasKey] at h
  | cons kv rest ih =>
    by_cases hk : kv.1 = k
    · exact ⟨kv.2, by simp [dictGet, hk]⟩
    · have hrest : hasKey rest k = true := by
        simpa [hasKey, List.any_cons, hk] using h
      obtain ⟨v, hv⟩ := ih hrest
      exact ⟨v, by simp [dictGet, hk, hv]⟩

theorem dictGet_map_update {α : Type} (d : List (String × α))
    (k : String) (v : α) (h : hasKey d k = true) :
    dictGet (d.map (fun kv => if kv.1 = k then (k, v) else kv)) k = some v := by
  induction d with
  | nil => simp [hasKey] at h
  | cons kv rest ih =>
    by_cases hk : kv.1 = k
    · simp [dictGet, hk]
    · have hrest : hasKey rest k = true := by
        simpa [hasKey, List.any_cons, hk] using h
      simp [dictGet, hk, ih hrest]

theorem dictGet_append_single {α : Type} (d : List (String × α))
    (k : String) (v : α) (h : hasKey d k = false) :
    dictGet (d ++ [(k, v)]) k = some v := by
  induction d with
  | nil => simp [dictGet]
  | cons kv rest ih =>
    have hk : ¬(kv.1 = k) := by
      intro he
      simp [hasKey, List.any_cons, he] at h
    have hrest : hasKey rest k = false := by
      simpa [hasKey, List.any_cons, hk] using h
    simp [dictGet, hk, ih hrest]

theorem dictGet_dictSet_self {α : Type} (d : List (String × α))
    (k : String) (v : α) : dictGet (dictSet d k v) k = some v := by
  by_cases h : hasKey d k
  · simp [dictSet, h, dictGet_map_update d k v h]
  · simp only [Bool.not_eq_true] at h
    simp [dictSet, h, dictGet_append_single d k v h]

theorem dictGet_map_update_ne {α : Type} (d : List (String × α))
    (k : String) (v : α) (k' : String) (h : k ≠ k') :
    dictGet (d.map (fun kv => if kv.1 = k then (k, v) else kv)) k' =
      dictGet d k' := by
  induction d with
  | nil => rfl
  | cons kv rest ih =>
    by_cases hk : kv.1 = k
    · simp [dictGet, hk, h, ih]
    · simp [dictGet, hk, ih]

theorem dictGet_append_single_ne {α : Type} (d : List (String × α))
    (k : String) (v : α) (k' : String) (h : k ≠ k') :
    dictGet (d ++ [(k, v)]) k' = dictGet d k' := by
  induction d with
  | nil => simp [dictGet, h]
  | cons kv rest ih =>
    by_cases hk : kv.1 = k'
    · simp [dictGet, hk]
    · simp [dictGet, hk, ih]

theorem dictGet_dictSet_ne {α : Type} (d : List (String × α))
    (k : String) (v : α) (k' : String) (h : k ≠ k') :
    dictGet (dictSet d k v) k' = dictGet d k' := by
  by_cases hk : hasKey d k
  · simp [dictSet, hk, dictGet_map_update_ne d k v k' h]
  · simp only [Bool.not_eq_true] at hk
    simp [dictSet, hk, dictGet_append_single_ne d k v k' h]

theorem keys_map_update {α : Type} (d : List (String × α))
    (k : String) (v : α) :
    (d.map (fun kv => if kv.1 = k then (k, v) else kv)).map Prod.fst =
      d.map Prod.fst := by
  induction d with
  | nil => rfl
  | cons kv rest ih =>
    by_cases hk : kv.1 = k
    · simp [hk, ih]
    · simp [hk, ih]

theorem keys_dictSet_of_hasKey {α : Type} (d : List (String × α))
    (k : String) (v : α) (h : hasKey d k = true) :
    (dictSet d k v).map Prod.fst = d.map Prod.fst := by
  rw [dictSet, if_pos h]
  exact keys_map_update d k v

theorem hasKey_congr {α β : Type} {c : List (String × α)}
    {d : List (String × β)} (h : c.map Prod.fst = d.map Prod.fst)
    (k : String) : hasKey c k = hasKey d k := by
  have h1 := hasKey_iff_mem_keys c k
  have h2 := hasKey_iff_mem_keys d k
  rw [h] at h1
  cases hc : hasKey c k <;> cases hd : hasKey d k <;> simp_all

theorem hasKey_dictSet {α : Type} (d : List (String × α))
    (k0 : String) (v : α) (k : String) :
    hasKey (dictSet d k0 v) k = (hasKey d k || (k0 == k)) := by
  by_cases h : hasKey d k0
  · rw [dictSet, if_pos h, hasKey_congr (keys_map_update d k0 v) k]
    by_cases hk : k0 = k
    · subst hk
      simp [h]
    · simp [hk]
  · rw [dictSet, if_neg h]
    simp [hasKey, List.any_append, List.any_cons]

theorem hasKey_dictUpdate {α : Type} (e d : List (String × α))
    (k : String) :
    hasKey (dictUpdate d e) k = (hasKey d k || hasKey e k) := by
  induction e generalizing d with
  | nil => simp [dictUpdate, hasKey]
  | cons kv rest ih =>
    rw [dictUpdate, ih, hasKey_dictSet]
    simp [hasKey, List.any_cons, Bool.or_assoc]

/-! ## Helper lemmas on the comparison rule -/

theorem cmpFn_self (mode : Mode) (a : Int) : mode.cmpFn a a = a := by
  cases mode <;> simp [Mode.cmpFn]

theorem cmpFn_total (mode : Mode) (a b : Int) :
    mode.cmpFn a b = a ∨ mode.cmpFn a b = b := by
  cases mode with
  | maxMode =>
    rcases le_total a b with h | h
    · exact Or.inr (max_eq_right h)
    · exact Or.inl (max_eq_left h)
  | minMode =>
    rcases le_total a b with h | h
    · exact Or.inl (min_eq_left h)
    · exact Or.inr (min_eq_right h)

theorem cmpFn_comm (mode : Mode) (a b : Int) :
    mode.cmpFn a b = mode.cmpFn b a := by
  cases mode with
  | maxMode => exact max_comm a b
  | minMode => exact min_comm a b

theorem cmpFn_trans (mode : Mode) {a b c : Int}
    (h1 : mode.cmpFn a b = a) (h2 : mode.cmpFn b c = b) :
    mode.cmpFn a c = a := by
  cases mode with
  | maxMode =>
    rw [Mode.cmpFn] at h1 h2 ⊢
    exact max_eq_left (le_trans (max_eq_left_iff.mp h2) (max_eq_left_iff.mp h1))
  | minMode =>
    rw [Mode.cmpFn] at h1 h2 ⊢
    exact min_eq_left (le_trans (min_eq_left_iff.mp h1) (min_eq_left_iff.mp h2))

/-! ## Behaviour of retargeting and remapping -/

theorem retarget_ok {p : Payload} {ln : String} (tn : Option String)
    (h : hasKey p.labels_to_tasks ln = true) :
    ∃ q, p.retarget_labelset ln tn = .ok q ∧
      q.labels_to_tasks.map Prod.fst = p.labels_to_tasks.map Prod.fst ∧
      dictGet q.labels_to_tasks ln = some tn ∧
      (∀ m, m ≠ ln → dictGet q.labels_to_tasks m = dictGet p.labels_to_tasks m) ∧
      q.dataset = p.dataset ∧ q.name = p.name ∧ q.split = p.split := by
  obtain ⟨old, hold⟩ := dictGet_isSome_of_hasKey h
  by_cases hne : old = tn
  · refine ⟨p, ?_, rfl, ?_, fun m _ => rfl, rfl, rfl, rfl⟩
    · rw [Payload.retarget_labelset, hold]
      simp [hne]
    · rw [hold, hne]
  · refine ⟨{ p with labels_to_tasks := dictSet p.labels_to_tasks ln tn },
      ?_, ?_, ?_, ?_, rfl, rfl, rfl⟩
    · rw [Payload.retarget_labelset, hold]
      simp [hne]
    · exact keys_dictSet_of_hasKey _ _ _ h
    · exact dictGet_dictSet_self _ _ _
    · intro m hm
      exact dictGet_dictSet_ne _ _ _ _ (Ne.symm hm)

theorem remapKeys_default_none (L : List String) :
    ∀ p : Payload, (∀ n ∈ L, hasKey p.labels_to_tasks n = true) →
    ∃ q, Payload.remapKeys [] true L p = .ok q ∧
      q.labels_to_tasks.map Prod.fst = p.labels_to_tasks.map Prod.fst ∧
      (∀ m ∈ L, dictGet q.labels_to_tasks m = some none) ∧
      (∀ m, m ∉ L → dictGet q.labels_to_tasks m = dictGet p.labels_to_tasks m) ∧
      q.dataset = p.dataset ∧ q.name = p.name ∧ q.split = p.split := by
  induction L with
  | nil =>
    intro p _
    exact ⟨p, rfl, rfl, by simp, fun m _ => rfl, rfl, rfl, rfl⟩
  | cons n rest ih =>
    intro p hL
    obtain ⟨p1, hp1, hkeys1, hget1, hframe1, hds1, hn1, hs1⟩ :=
      retarget_ok none (hL n (List.mem_cons_self n rest))
    have hrest : ∀ m ∈ rest, hasKey p1.labels_to_tasks m = true := by
      intro m hm
      rw [hasKey_congr hkeys1 m]
      exact hL m (List.mem_cons_of_mem n hm)
    obtain ⟨q, hq, hkeys2, hget2, hframe2, hds2, hn2, hs2⟩ := ih p1 hrest
    refine ⟨q, ?_, hkeys2.trans hkeys1, ?_, ?_, hds2.trans hds1,
      hn2.trans hn1, hs2.trans hs1⟩
    · simp only [Payload.remapKeys, dictGet, if_true]
      rw [hp1]
      exact hq
    · intro m hm
      rcases List.mem_cons.mp hm with rfl | hm'
      · by_cases hmr : m ∈ rest
        · exact hget2 m hmr
        · rw [hframe2 m hmr]
          exact hget1
      · exact hget2 m hm'
    · intro m hm
      have hm1 : m ≠ n := fun he => hm (he ▸ List.mem_cons_self n rest)
      have hm2 : m ∉ rest := fun hr => hm (List.mem_cons_of_mem n hr)
      rw [hframe2 m hm2, hframe1 m hm1]

theorem remapKeys_single (a : String) (t : String) (L : List String) :
    ∀ p : Payload, (a ∈ L → hasKey p.labels_to_tasks a = true) →
    ∃ q, Payload.remapKeys [(a, some t)] false L p = .ok q ∧
      q.labels_to_tasks.map Prod.fst = p.labels_to_tasks.map Prod.fst ∧
      (∀ m, m ≠ a → dictGet q.labels_to_tasks m = dictGet p.labels_to_tasks m) ∧
      (a ∈ L → dictGet q.labels_to_tasks a = some (some t)) ∧
      (a ∉ L → dictGet q.labels_to_tasks a = dictGet p.labels_to_tasks a) ∧
      q.dataset = p.dataset ∧ q.name = p.name ∧ q.split = p.split := by
  induction L with
  | nil =>
    intro p _
    exact ⟨p, rfl, rfl, fun m _ => rfl, by simp, fun _ => rfl, rfl, rfl, rfl⟩
  | cons n rest ih =>
    intro p ha
    by_cases hna : n = a
    · subst hna
      have hk : hasKey p.labels_to_tasks n = true :=
        ha (List.mem_cons_self n rest)
      obtain ⟨p1, hp1, hkeys1, hget1, hframe1, hds1, hn1, hs1⟩ :=
        retarget_ok (some t) hk
      have ha1 : n ∈ rest → hasKey p1.labels_to_tasks n = true := by
        intro _
        rw [hasKey_congr hkeys1 n]
        exact hk
      obtain ⟨q, hq, hkeys2, hframe2, hin2, hout2, hds2, hn2, hs2⟩ := ih p1 ha1
      refine ⟨q, ?_, hkeys2.trans hkeys1, ?_, ?_, ?_, hds2.trans hds1,
        hn2.trans hn1, hs2.trans hs1⟩
      · simp only [Payload.remapKeys, dictGet, if_true]
        rw [hp1]
        exact hq
      · intro m hm
        rw [hframe2 m hm, hframe1 m hm]
      · intro _
        by_cases hr : n ∈ rest
        · exact hin2 hr
        · rw [hout2 hr]
          exact hget1
      · intro habs
        exact absurd (List.mem_cons_self n rest) habs
    · have hne : ¬(a = n) := fun he => hna he.symm
      obtain ⟨q, hq, hkeys2, hframe2, hin2, hout2, hds2, hn2, hs2⟩ :=
        ih p (fun hr => ha (List.mem_cons_of_mem n hr))
      refine ⟨q, ?_, hkeys2, hframe2, ?_, ?_, hds2, hn2, hs2⟩
      · simp only [Payload.remapKeys, dictGet, if_neg hne, if_neg Bool.false_ne_true]
        exact hq
      · intro hm
        rcases List.mem_cons.mp hm with rfl | hm'
        · exact absurd rfl hna
        · exact hin2 hm'
      · intro hm
        exact hout2 (fun hr => hm (List.mem_cons_of_mem n hr))

/-! ## Behaviour of the best-selection scan -/

theorem scanLoop_cons (sm : Option String) (mode : Mode) (e : Entry)
    (rest : List Entry) (st : ScanState) :
    scanLoop sm mode (e :: rest) st =
      match scanStep sm mode st e with
      | .ok st2 => scanLoop sm mode rest st2
      | .error err => .error err := rfl

theorem scanStep_first (m : String) (hm : m ≠ "") (mode : Mode)
    (e : Entry) (w : Int) (hw : dictGet e.2 m = some w) :
    scanStep (some m) mode ⟨none, none⟩ e = .ok ⟨some e.1, some w⟩ := by
  simp [scanStep, hm, hw]

theorem scanStep_compare (m : String) (hm : m ≠ "") (mode : Mode)
    (pc0 : PathConfig) (b : Int) (hb : b ≠ 0) (e : Entry) (w : Int)
    (hw : dictGet e.2 m = some w) :
    scanStep (some m) mode ⟨some pc0, some b⟩ e =
      .ok (if mode.cmpFn w b = w then ⟨some e.1, some w⟩
           else ⟨some pc0, some b⟩) := by
  simp only [scanStep, if_neg hm]
  show (if b = 0 then _ else _) = _
  rw [if_neg hb, hw]
  by_cases hc : mode.cmpFn w b = w <;> simp [hc]

theorem scanLoop_go (m : String) (hm : m ≠ "") (mode : Mode) :
    ∀ (rest : List Entry) (pc0 : PathConfig) (b : Int), b ≠ 0 →
    (∀ e ∈ rest, ∃ v, dictGet e.2 m = some v ∧ v ≠ 0) →
    ∃ pc v, scanLoop (some m) mode rest ⟨some pc0, some b⟩ =
        .ok ⟨some pc, some v⟩ ∧
      ((pc = pc0 ∧ v = b) ∨ ∃ e ∈ rest, e.1 = pc ∧ dictGet e.2 m = some v) ∧
      v ≠ 0 ∧
      mode.cmpFn v b = v ∧
      (∀ e ∈ rest, ∀ w, dictGet e.2 m = some w → mode.cmpFn v w = v) := by
  intro rest
  induction rest with
  | nil =>
    intro pc0 b hb _
    exact ⟨pc0, b, rfl, Or.inl ⟨rfl, rfl⟩, hb, cmpFn_self mode b, by simp⟩
  | cons e rest ih =>
    intro pc0 b hb hvals
    obtain ⟨w, hw, hw0⟩ := hvals e (List.mem_cons_self e rest)
    have hvals2 : ∀ e2 ∈ rest, ∃ v, dictGet e2.2 m = some v ∧ v ≠ 0 :=
      fun e2 he2 => hvals e2 (List.mem_cons_of_mem e he2)
    have hstep := scanStep_compare m hm mode pc0 b hb e w hw
    by_cases hc : mode.cmpFn w b = w
    · rw [if_pos hc] at hstep
      obtain ⟨pc, v, hloop, hsrc, hv0, hcmpb, hall⟩ := ih e.1 w hw0 hvals2
      refine ⟨pc, v, ?_, ?_, hv0, cmpFn_trans mode hcmpb hc, ?_⟩
      · rw [scanLoop_cons, hstep]
        exact hloop
      · rcases hsrc with ⟨hpc, hv⟩ | ⟨e2, he2, h1, h2⟩
        · refine Or.inr ⟨e, List.mem_cons_self e rest, hpc.symm, ?_⟩
          rw [hv]
          exact hw
        · exact Or.inr ⟨e2, List.mem_cons_of_mem e he2, h1, h2⟩
      · intro e2 he2 w2 hw2
        rcases List.mem_cons.mp he2 with rfl | he3
        · have hww : w2 = w := by
            rw [hw] at hw2
            exact (Option.some.inj hw2).symm
          rw [hww]
          exact hcmpb
        · exact hall e2 he3 w2 hw2
    · rw [if_neg hc] at hstep
      obtain ⟨pc, v, hloop, hsrc, hv0, hcmpb, hall⟩ := ih pc0 b hb hvals2
      refine ⟨pc, v, ?_, ?_, hv0, hcmpb, ?_⟩
      · rw [scanLoop_cons, hstep]
        exact hloop
      · rcases hsrc with h | ⟨e2, he2, h1, h2⟩
        · exact Or.inl h
        · exact Or.inr ⟨e2, List.mem_cons_of_mem e he2, h1, h2⟩
      · intro e2 he2 w2 hw2
        rcases List.mem_cons.mp he2 with rfl | he3
        · have hww : w2 = w := by
            rw [hw] at hw2
            exact (Option.some.inj hw2).symm
          have h1 : mode.cmpFn w b = b := (cmpFn_total mode w b).resolve_left hc
          have h2 : mode.cmpFn b w = b := (cmpFn_comm mode b w).trans h1
          rw [hww]
          exact cmpFn_trans mode hcmpb h2
        · exact hall e2 he3 w2 hw2

theorem scanLoop_none (mode : Mode) (l : List Entry) (st : ScanState) :
    scanLoop none mode l st = .ok st := by
  induction l with
  | nil => rfl
  | cons e rest ih =>
    rw [scanLoop_cons]
    exact ih

/-! ## Claim theorems -/

/-- C2: the claimed add/remove round trip fails on the code.  On the
payload with empty mappings, `add_label_set("T1", "a", 3×1 tensor)`
succeeds and stores the labels under the **task** name `"T1"` while
`labels_to_tasks` gains the key `"a"`; the subsequent
`remove_label_set("a")` then raises `KeyError` (it pops the **label**
name from the dataset mapping), so neither mapping returns to its prior
state. -/
theorem add_then_remove_not_roundtrip :
    samplePayload.add_label_set "T1" "a" (some (.tensor ⟨[3, 1]⟩)) none =
      .ok addedPayload ∧
    addedPayload.remove_label_set "a" = .error .keyError ∧
    addedPayload ≠ samplePayload :=
  ⟨rfl, rfl, by decide⟩

/-- C4: `add_label_set` does not keep the two mappings in lockstep: with
`task_name = "T1"` and `label_name = "a"` the resulting payload has
`"a"` as a `labels_to_tasks` key but not as a dataset-label key, and
`"T1"` as a dataset-label key but not as a `labels_to_tasks` key. -/
theorem add_label_set_breaks_lockstep :
    samplePayload.add_label_set "T1" "a" (some (.tensor ⟨[3, 1]⟩)) none =
      .ok addedPayload ∧
    hasKey addedPayload.labels_to_tasks "a" = true ∧
    hasKey addedPayload.dataset.labels "a" = false ∧
    hasKey addedPayload.dataset.labels "T1" = true ∧
    hasKey addedPayload.labels_to_tasks "T1" = false :=
  ⟨rfl, rfl, rfl, rfl, rfl⟩

/-- C3: when `--search_metric` is omitted the driver does **not**
complete: `best_path_config` is still `None` after the scan, and the
unconditional `best_path, best_config = best_path_config` unpacking
raises `TypeError` before the report file is written — for every
collection of metrics. -/
theorem search_metric_omitted_typeerror (mode : Mode) (ctm : List Entry) :
    mainTail none mode ctm = .error .typeError := by
  unfold mainTail
  rw [scanLoop_none]

/-- C5: with `search_metric = "A"` on the spec's three-entry example the
report contains the best path (`p2`), the best metric value (`A: 9`)
and the dump of the collection, but the config line is the literal text
`Config: {best_config}` — the source's `f.write("Config:
{best_config}\n")` lacks the f-string prefix, so the stringified
sampled configuration never reaches the file. -/
theorem report_config_line_literal :
    mainTail (some "A") Mode.maxMode exampleCollection =
      .ok ("Path: p2\n" ++ "Config: {best_config}\n" ++ "A: 9\n"
        ++ pprintDump exampleCollection) := rfl

/-- C10: passing a plain Python list (not a `torch.Tensor`) as
`label_list` always fails the `isinstance` assertion, before any
mutation of the payload. -/
theorem add_label_set_rejects_plain_list (p : Payload) (tn ln : String)
    (xs : List Int) :
    p.add_label_set tn ln (some (.pyList xs)) none = .error .assertionError :=
  rfl

/-- C1 (amended): provided every collected value of the search metric is
nonzero, the best-selection scan returns a `(path, config)` entry of the
collection whose metric value `v` satisfies `cmp v w = v` against every
collected value `w` — i.e. `v` is the maximum under mode `max` and the
minimum under mode `min`.  (Without the nonzero proviso the scan's
`if not best_metric` re-initialization can discard a legitimate `0`.) -/
theorem scan_selects_extremum (m : String) (mode : Mode) (ctm : List Entry)
    (hm : m ≠ "") (hne : ctm ≠ [])
    (hvals : ∀ e ∈ ctm, ∃ v, dictGet e.2 m = some v ∧ v ≠ 0) :
    ∃ pc v, scanLoop (some m) mode ctm ⟨none, none⟩ = .ok ⟨some pc, some v⟩ ∧
      (∃ e ∈ ctm, e.1 = pc ∧ dictGet e.2 m = some v) ∧
      (∀ e ∈ ctm, ∀ w, dictGet e.2 m = some w → mode.cmpFn v w = v) := by
  match ctm, hne with
  | e :: rest, _ =>
    obtain ⟨w, hw, hw0⟩ := hvals e (List.mem_cons_self e rest)
    have hstep := scanStep_first m hm mode e w hw
    obtain ⟨pc, v, hloop, hsrc, hv0, hcmpw, hall⟩ :=
      scanLoop_go m hm mode rest e.1 w hw0
        (fun e2 he2 => hvals e2 (List.mem_cons_of_mem e he2))
    refine ⟨pc, v, ?_, ?_, ?_⟩
    · rw [scanLoop_cons, hstep]
      exact hloop
    · rcases hsrc with ⟨hpc, hv⟩ | ⟨e2, he2, h1, h2⟩
      · refine ⟨e, List.mem_cons_self e rest, hpc.symm, ?_⟩
        rw [hv]
        exact hw
      · exact ⟨e2, List.mem_cons_of_mem e he2, h1, h2⟩
    · intro e2 he2 w2 hw2
      rcases List.mem_cons.mp he2 with rfl | he3
      · have hww : w2 = w := by
          rw [hw] at hw2
          exact (Option.some.inj hw2).symm
        rw [hww]
        exact hcmpw
      · exact hall e2 he3 w2 hw2

/-- C1, counterexample to the unamended claim: under mode `min` with
collected metrics `A = 5, 0, 3` the scan returns the entry with value
`3`, although `0` is a collected value of `A` and `min 3 0 ≠ 3` — the
selected value is not the minimum.  (After `0` becomes the running
best, `if not best_metric` treats it as "unset" and the next candidate
overwrites it unconditionally.) -/
theorem scan_zero_metric_cex :
    scanLoop (some "A") Mode.minMode falsyCollection ⟨none, none⟩ =
      .ok ⟨some ("p3", "c3"), some 3⟩ ∧
    ((("p2", "c2"), [("A", (0 : Int))]) : Entry) ∈ falsyCollection ∧
    dictGet [("A", (0 : Int))] "A" = some 0 ∧
    Mode.minMode.cmpFn 3 0 ≠ 3 :=
  ⟨rfl, by decide, rfl, by decide⟩

/-- C1, witness: on the spec's example `A = 5, 9, 2` the hypotheses of
`scan_selects_extremum` hold, mode `max` selects the entry with value
`9` and mode `min` the entry with value `2`. -/
theorem scan_selects_extremum_witness :
    (("A" : String) ≠ "" ∧ exampleCollection ≠ [] ∧
      (∀ e ∈ exampleCollection, ∃ v, dictGet e.2 "A" = some v ∧ v ≠ 0)) ∧
    (∃ pc v, scanLoop (some "A") Mode.maxMode exampleCollection ⟨none, none⟩ =
        .ok ⟨some pc, some v⟩ ∧
      (∃ e ∈ exampleCollection, e.1 = pc ∧ dictGet e.2 "A" = some v) ∧
      (∀ e ∈ exampleCollection, ∀ w, dictGet e.2 "A" = some w →
        Mode.maxMode.cmpFn v w = v)) ∧
    scanLoop (some "A") Mode.maxMode exampleCollection ⟨none, none⟩ =
      .ok ⟨some ("p2", "c2"), some 9⟩ ∧
    scanLoop (some "A") Mode.minMode exampleCollection ⟨none, none⟩ =
      .ok ⟨some ("p3", "c3"), some 2⟩ := by
  have hvals : ∀ e ∈ exampleCollection, ∃ v, dictGet e.2 "A" = some v ∧ v ≠ 0 := by
    intro e he
    simp only [exampleCollection, List.mem_cons, List.not_mem_nil, or_false] at he
    rcases he with rfl | rfl | rfl
    · exact ⟨5, rfl, by decide⟩
    · exact ⟨9, rfl, by decide⟩
    · exact ⟨2, rfl, by decide⟩
  exact ⟨⟨by decide, by decide, hvals⟩,
    scan_selects_extremum "A" Mode.maxMode exampleCollection (by decide)
      (by decide) hvals,
    rfl, rfl⟩

/-- C6: when the search space and the fixed args share a key — so every
sampled configuration (whose keys are the search-space keys) carries
that key — the first loop iteration raises
`ValueError("Fixed arg shows up in search space.")` before the training
entrypoint is invoked: the list of launched configurations is empty. -/
theorem trialLoop_overlap_error (search_space fixed_args : Conf)
    (device : Option String) (launch : Conf → String × Metrics)
    (configs : List Conf)
    (hoverlap : ∃ k, hasKey search_space k = true ∧ hasKey fixed_args k = true)
    (hkeys : ∀ c ∈ configs, c.map Prod.fst = search_space.map Prod.fst)
    (hne : configs ≠ []) :
    (trialLoop fixed_args device launch configs).1 = [] ∧
    (trialLoop fixed_args device launch configs).2 =
      .error (.valueError "Fixed arg shows up in search space.") := by
  match configs, hne with
  | c :: rest, _ =>
    obtain ⟨k, hks, hkf⟩ := hoverlap
    have hc : hasKey c k = true := by
      rw [hasKey_congr (hkeys c (List.mem_cons_self c rest)) k]
      exact hks
    have hfull : hasKey (dictUpdate [] c) k = true := by
      rw [hasKey_dictUpdate]
      simp only [hc, Bool.or_true]
    have hany : fixed_args.any (fun kv => hasKey (dictUpdate [] c) kv.1) = true := by
      rw [List.any_eq_true]
      obtain ⟨kv, hkv, hfst⟩ :=
        List.mem_map.mp ((hasKey_iff_mem_keys fixed_args k).mp hkf)
      refine ⟨kv, hkv, ?_⟩
      rw [hfst]
      exact hfull
    have hred : trialLoop fixed_args device launch (c :: rest) =
        ([], .error (.valueError "Fixed arg shows up in search space.")) := by
      simp [trialLoop, hany]
    rw [hred]
    exact ⟨rfl, rfl⟩

/-- C6, witness: `search_space` and `fixed_args` both carry the key
`lr`; on the single sampled config the loop launches nothing and
raises the configuration error. -/
theorem trialLoop_overlap_error_witness :
    ((∃ k, hasKey overlapSearchSpace k = true ∧
        hasKey overlapFixedArgs k = true) ∧
      (∀ c ∈ overlapConfigs, c.map Prod.fst =
        overlapSearchSpace.map Prod.fst) ∧
      overlapConfigs ≠ []) ∧
    (trialLoop overlapFixedArgs none (fun _ => ("", [])) overlapConfigs).1 =
      [] ∧
    (trialLoop overlapFixedArgs none (fun _ => ("", [])) overlapConfigs).2 =
      .error (.valueError "Fixed arg shows up in search space.") := by
  refine ⟨⟨⟨"lr", by decide, by decide⟩, by decide, by decide⟩, ?_, ?_⟩
  · exact (trialLoop_overlap_error overlapSearchSpace overlapFixedArgs none
      (fun _ => ("", [])) overlapConfigs ⟨"lr", by decide, by decide⟩
      (by decide) (by decide)).1
  · exact (trialLoop_overlap_error overlapSearchSpace overlapFixedArgs none
      (fun _ => ("", [])) overlapConfigs ⟨"lr", by decide, by decide⟩
      (by decide) (by decide)).2

/-- C7: `remap_labelsets({}, default_none := true)` succeeds and maps
every existing label-set name (any `n` with `hasKey`) to `None`,
preserving the key list and the dataset; and
`remap_labelsets({a: t}, default_none := false)` succeeds, retargets
label set `a` to `t`, and leaves every other entry of
`labels_to_tasks` — and the dataset — unchanged. -/
theorem remap_labelsets_spec (p : Payload) (n a t : String)
    (hn : hasKey p.labels_to_tasks n = true)
    (ha : hasKey p.labels_to_tasks a = true) :
    (∃ q, p.remap_labelsets [] true = .ok q ∧
      q.labels_to_tasks.map Prod.fst = p.labels_to_tasks.map Prod.fst ∧
      dictGet q.labels_to_tasks n = some none ∧
      q.dataset = p.dataset) ∧
    (∃ q, p.remap_labelsets [(a, some t)] false = .ok q ∧
      q.labels_to_tasks.map Prod.fst = p.labels_to_tasks.map Prod.fst ∧
      dictGet q.labels_to_tasks a = some (some t) ∧
      (∀ m, m ≠ a → dictGet q.labels_to_tasks m = dictGet p.labels_to_tasks m) ∧
      q.dataset = p.dataset) := by
  constructor
  · have hL : ∀ m ∈ p.labels_to_tasks.map (fun kv => kv.1),
        hasKey p.labels_to_tasks m = true :=
      fun m hm => (hasKey_iff_mem_keys _ m).mpr hm
    obtain ⟨q, hq, hkeys, hget, _, hds, _, _⟩ :=
      remapKeys_default_none (p.labels_to_tasks.map (fun kv => kv.1)) p hL
    exact ⟨q, hq, hkeys, hget n ((hasKey_iff_mem_keys _ n).mp hn), hds⟩
  · have haL : a ∈ p.labels_to_tasks.map (fun kv => kv.1) :=
      (hasKey_iff_mem_keys _ a).mp ha
    obtain ⟨q, hq, hkeys, hframe, hget, _, hds, _, _⟩ :=
      remapKeys_single a t (p.labels_to_tasks.map (fun kv => kv.1)) p
        (fun _ => ha)
    exact ⟨q, hq, hkeys, hget haL, hframe, hds⟩

/-- C7, witness: on the payload with label sets `a ↦ T1, b ↦ T2`, the
blanket remap nulls `b` and the singleton remap `a ↦ T2` changes only
`a`. -/
theorem remap_labelsets_spec_witness :
    (hasKey remapPayload.labels_to_tasks "b" = true ∧
      hasKey remapPayload.labels_to_tasks "a" = true) ∧
    ((∃ q, remapPayload.remap_labelsets [] true = .ok q ∧
      q.labels_to_tasks.map Prod.fst =
        remapPayload.labels_to_tasks.map Prod.fst ∧
      dictGet q.labels_to_tasks "b" = some none ∧
      q.dataset = remapPayload.dataset) ∧
    (∃ q, remapPayload.remap_labelsets [("a", some "T2")] false = .ok q ∧
      q.labels_to_tasks.map Prod.fst =
        remapPayload.labels_to_tasks.map Prod.fst ∧
      dictGet q.labels_to_tasks "a" = some (some "T2") ∧
      (∀ m, m ≠ "a" → dictGet q.labels_to_tasks m =
        dictGet remapPayload.labels_to_tasks m) ∧
      q.dataset = remapPayload.dataset)) :=
  ⟨⟨by decide, by decide⟩,
    remap_labelsets_spec remapPayload "b" "a" "T2" (by decide) (by decide)⟩

/-- C8: `add_label_set` with both `label_list` and `label_fn` fails the
`assert label_list is None`; with neither it raises the
`ValueError`; and any successful call had exactly one of the two
provided. -/
theorem add_label_set_exactly_one (p : Payload) (tn ln : String) :
    (∀ obj f, p.add_label_set tn ln (some obj) (some f) =
      .error .assertionError) ∧
    p.add_label_set tn ln none none =
      .error (.valueError "Incorrect label object type -- supply list or function") ∧
    (∀ ll lf q, p.add_label_set tn ln ll lf = .ok q →
      (ll.isSome = true ∧ lf = none) ∨ (ll = none ∧ lf.isSome = true)) := by
  refine ⟨fun obj f => rfl, rfl, fun ll lf q h => ?_⟩
  cases ll with
  | none =>
    cases lf with
    | none => simp [Payload.add_label_set] at h
    | some f => exact Or.inr ⟨rfl, rfl⟩
  | some obj =>
    cases lf with
    | none => exact Or.inl ⟨rfl, rfl⟩
    | some f => simp [Payload.add_label_set] at h

/-- C8, witness: a successful call (a 3×1 tensor as `label_list`,
no `label_fn`) instantiates the success direction. -/
theorem add_label_set_exactly_one_witness :
    samplePayload.add_label_set "T1" "a" (some (.tensor ⟨[3, 1]⟩)) none =
      .ok addedPayload ∧
    (((some (PyObj.tensor ⟨[3, 1]⟩)).isSome = true ∧
        (none : Option (Tensor → Tensor)) = none) ∨
      ((some (PyObj.tensor ⟨[3, 1]⟩) : Option PyObj) = none ∧
        (none : Option (Tensor → Tensor)).isSome = true)) :=
  ⟨rfl, (add_label_set_exactly_one samplePayload "T1" "a").2.2
    (some (.tensor ⟨[3, 1]⟩)) none addedPayload rfl⟩

/-- C9: on both label sources, a resulting label array with fewer than
2 dimensions makes `add_label_set` raise the fatal dimension error
(before either mapping is touched), while 2 or more dimensions — e.g.
shape `[n, 1]` — succeeds. -/
theorem add_label_set_dim_check (p : Payload) (tn ln : String) (t : Tensor)
    (f : Tensor → Tensor) :
    (t.dim < 2 → p.add_label_set tn ln (some (.tensor t)) none =
      .error (.exception "New label_set must have at least two dimensions: [n, ?]")) ∧
    (2 ≤ t.dim → ∃ q, p.add_label_set tn ln (some (.tensor t)) none = .ok q) ∧
    ((torchStack (p.dataset.items.map f)).dim < 2 →
      p.add_label_set tn ln none (some f) =
        .error (.exception "New label_set must have at least two dimensions: [n, ?]")) ∧
    (2 ≤ (torchStack (p.dataset.items.map f)).dim →
      ∃ q, p.add_label_set tn ln none (some f) = .ok q) := by
  refine ⟨?_, ?_, ?_, ?_⟩
  · intro h
    simp [Payload.add_label_set, Payload.finishAdd, h]
  · intro h
    refine ⟨{ p with
      dataset := { p.dataset with labels := dictSet p.dataset.labels tn t },
      labels_to_tasks := dictSet p.labels_to_tasks ln (some tn) }, ?_⟩
    simp [Payload.add_label_set, Payload.finishAdd, Nat.not_lt.mpr h]
  · intro h
    simp [Payload.add_label_set, Payload.finishAdd, h]
  · intro h
    refine ⟨{ p with
      dataset := { p.dataset with
        labels := dictSet p.dataset.labels tn (torchStack (p.dataset.items.map f)) },
      labels_to_tasks := dictSet p.labels_to_tasks ln (some tn) }, ?_⟩
    simp [Payload.add_label_set, Payload.finishAdd, Nat.not_lt.mpr h]

/-- C9, witness: shape `[3]` (1-D) raises on the `label_list` path and a
stacked scalar label raises on the `label_fn` path; shape `[3, 1]` and
a stacked `[4]`-shaped label succeed. -/
theorem add_label_set_dim_check_witness :
    ((⟨[3]⟩ : Tensor).dim < 2 ∧
      samplePayload.add_label_set "T1" "a" (some (.tensor ⟨[3]⟩)) none =
        .error (.exception "New label_set must have at least two dimensions: [n, ?]")) ∧
    (2 ≤ (⟨[3, 1]⟩ : Tensor).dim ∧
      ∃ q, samplePayload.add_label_set "T1" "a" (some (.tensor ⟨[3, 1]⟩)) none =
        .ok q) ∧
    ((torchStack (samplePayload.dataset.items.map id)).dim < 2 ∧
      samplePayload.add_label_set "T1" "a" none (some id) =
        .error (.exception "New label_set must have at least two dimensions: [n, ?]")) ∧
    (2 ≤ (torchStack (itemsPayload.dataset.items.map id)).dim ∧
      ∃ q, itemsPayload.add_label_set "T1" "a" none (some id) = .ok q) :=
  ⟨⟨by decide, (add_label_set_dim_check samplePayload "T1" "a" ⟨[3]⟩ id).1
      (by decide)⟩,
    ⟨by decide, (add_label_set_dim_check samplePayload "T1" "a" ⟨[3, 1]⟩ id).2.1
      (by decide)⟩,
    ⟨by decide, (add_label_set_dim_check samplePayload "T1" "a" ⟨[3]⟩ id).2.2.1
      (by decide)⟩,
    ⟨by decide, (add_label_set_dim_check itemsPayload "T1" "a" ⟨[3]⟩ id).2.2.2
      (by decide)⟩⟩
